import Mathlib

/-!
Shallow embedding of the Zircon USB composite-device core
(src/system/dev/usb/usb-bus/usb-device.c, usb-device.h and
src/system/dev/usb/usb-composite/usb-composite.c) and proofs about the
claims of its specification.

Configuration descriptor blobs are modelled as `List Nat` (one entry per
byte, values taken modulo nothing because all reads are single bytes);
pointers into a blob become byte offsets.  The C loops in
`usb_device_add_interfaces` have no termination argument in the source
(they advance by the self-reported `bLength`), so they are embedded with
an explicit fuel parameter; returning `none` means the fuel ran out,
which on every run of the C code corresponds to non-termination of the
loop, since every loop iteration either consumes fuel and makes the same
step the C code makes, or the loop has exited.
-/

/-! ### Zircon status codes (zircon/errors.h) -/

def ZX_OK : Int := 0

def ZX_ERR_INTERNAL : Int := -1

def ZX_ERR_NOT_SUPPORTED : Int := -2

def ZX_ERR_NO_MEMORY : Int := -4

def ZX_ERR_INVALID_ARGS : Int := -10

def ZX_ERR_BUFFER_TOO_SMALL : Int := -15

def ZX_ERR_BAD_STATE : Int := -20

def ZX_ERR_TIMED_OUT : Int := -21

def ZX_ERR_ALREADY_BOUND : Int := -27

/-! ### Data model (usb-device.h) -/

/-- Embedding of `interface_status_t` (usb-device.h lines 18-25).  The C
enum starts at 0, so `memset(..., 0, ...)` over the array writes
`AVAILABLE`. -/
inductive InterfaceStatus where
  | AVAILABLE
  | CLAIMED
  | CHILD_DEVICE
deriving DecidableEq

/-- Whether a published child came from the single-interface branch of
the walker (`usb_device_add_interface`) or from the interface-association
branch (`usb_device_add_interface_association`). -/
inductive ChildKind where
  | single
  | assoc
deriving DecidableEq

/-- Modelled from the spec: the interface-child record of section 3 of the
spec ("one per published child: the interface number (or the first
interface number of an IAD group), the span of descriptors that belong to
it").  The `usb_interface_t` structure itself lives in usb-interface.h,
which is not under src/; `nums` is the list of top-level interface numbers
the child owns (the spec's `usb_interface_contains_interface` contract)
and `span` is the half-open byte range of the configuration blob that was
copied for the child. -/
structure Child where
  kind : ChildKind
  nums : List Nat
  span : Nat × Nat
deriving DecidableEq

/-- The interface-registry part of `usb_device_t` (usb-device.h lines
54-59): the `interface_statuses` array, indexed by interface number and
allocated with the current configuration's `bNumInterfaces` entries, and
the `children` list. -/
structure DevState where
  statuses : List InterfaceStatus
  children : List Child
deriving DecidableEq

/-- The parts of `usb_device_t` (usb-device.h lines 30-75) the verified
operations touch: `speed`, the `config_descs` array of raw configuration
blobs, `current_config_index`, and the interface registry. -/
structure Device where
  speed : Nat
  configDescs : List (List Nat)
  currentConfigIndex : Nat
  state : DevState
deriving DecidableEq

/-! ### Raw descriptor field reads (little-endian, byte offsets) -/

/-- Field `bLength` of the descriptor starting at offset `o`. -/
def dLen (blob : List Nat) (o : Nat) : Nat := blob.getD o 0

/-- Field `bDescriptorType` of the descriptor starting at offset `o`. -/
def dType (blob : List Nat) (o : Nat) : Nat := blob.getD (o + 1) 0

/-- Field `bInterfaceNumber` of an interface descriptor at offset `o`
(usb_interface_descriptor_t, byte 2). -/
def dIntfNum (blob : List Nat) (o : Nat) : Nat := blob.getD (o + 2) 0

/-- Field `bAlternateSetting` of an interface descriptor at offset `o`
(usb_interface_descriptor_t, byte 3). -/
def dAltSetting (blob : List Nat) (o : Nat) : Nat := blob.getD (o + 3) 0

/-- Field `bInterfaceCount` of an interface association descriptor at
offset `o` (usb_interface_assoc_descriptor_t, byte 3). -/
def dIadCount (blob : List Nat) (o : Nat) : Nat := blob.getD (o + 3) 0

/-- Field `wTotalLength` of a configuration descriptor: little-endian
16-bit word at bytes 2 and 3 (`le16toh`). -/
def wTotalLength (blob : List Nat) : Nat := blob.getD 2 0 + 256 * blob.getD 3 0

/-- Field `bNumInterfaces` of a configuration descriptor (byte 4). -/
def bNumInterfaces (blob : List Nat) : Nat := blob.getD 4 0

/-- Field `bConfigurationValue` of a configuration descriptor (byte 5). -/
def bConfigurationValue (blob : List Nat) : Nat := blob.getD 5 0

/-- Descriptor type `USB_DT_INTERFACE` (0x04). -/
def USB_DT_INTERFACE : Nat := 4

/-- Descriptor type `USB_DT_INTERFACE_ASSOCIATION` (0x0B). -/
def USB_DT_INTERFACE_ASSOCIATION : Nat := 11

/-- The bytes of `blob` in the half-open offset range from `a` to `b`. -/
def sliceBytes (blob : List Nat) (a b : Nat) : List Nat := (blob.drop a).take (b - a)

/-! ### Structural well-formedness of a configuration blob -/

/-- Checks that the descriptors starting at offset `o` tile the blob
exactly up to `total`: each descriptor has `bLength` of at least 2 (the
two header bytes) and ends at or before `total`, and the last one ends
exactly at `total`.  `fuel` bounds the recursion; `fuel = total` always
suffices because every step advances by at least 2. -/
def tilesFromAux (blob : List Nat) (total : Nat) : Nat → Nat → Bool
  | 0, o => o == total
  | fuel + 1, o =>
    if o < total then
      decide (2 ≤ dLen blob o) && decide (o + dLen blob o ≤ total) &&
        tilesFromAux blob total fuel (o + dLen blob o)
    else o == total

/-- Inductive form of descriptor tiling, used by the loop invariants. -/
inductive Tiling (blob : List Nat) (total : Nat) : Nat → Prop
  | done : Tiling blob total total
  | step {o : Nat} : o < total → 2 ≤ dLen blob o → o + dLen blob o ≤ total →
      Tiling blob total (o + dLen blob o) → Tiling blob total o

/-- A structurally well-formed configuration descriptor blob: its length
equals `wTotalLength`, the configuration header is the standard 9-byte
descriptor of type CONFIG, and the descriptors after the header tile the
remaining bytes exactly, each with a `bLength` of at least 2. -/
def WellFormed (blob : List Nat) : Prop :=
  9 ≤ wTotalLength blob ∧ blob.length = wTotalLength blob ∧
    dLen blob 0 = 9 ∧ dType blob 0 = 2 ∧
    tilesFromAux blob (wTotalLength blob) (wTotalLength blob) 9 = true

instance (blob : List Nat) : Decidable (WellFormed blob) := by
  unfold WellFormed; infer_instance

/-! ### Top-level interface numbers inside a descriptor range -/

/-- The `bInterfaceNumber`s of the top-level interface descriptors
(`bDescriptorType = USB_DT_INTERFACE` and `bAlternateSetting = 0`) found
by stepping through descriptors from offset `a` up to `b`.  `fuel = b`
always suffices; on a zero `bLength` the scan gives up (that case is never
reached under `Tiling`). -/
def topNumsAux (blob : List Nat) (b : Nat) : Nat → Nat → List Nat
  | 0, _ => []
  | fuel + 1, a =>
    if a < b then
      if 0 < dLen blob a then
        (if dType blob a = USB_DT_INTERFACE ∧ dAltSetting blob a = 0 then
          [dIntfNum blob a] else []) ++ topNumsAux blob b fuel (a + dLen blob a)
      else []
    else []

/-- Number of top-level interface descriptors in the offset range from
`a` to `b`. -/
def topIntfCount (blob : List Nat) (a b : Nat) : Nat := (topNumsAux blob b b a).length

/-! ### Interface registry helpers shared by claim and the walker -/

/-- Modelled from the spec: `usb_device_remove_interface_by_id_locked` is
defined in usb-interface.c, which is not under src/.  Per the spec
(section 4.2 claim, section 7 `bad_state`), the registry searches
`children` for the child that owns the given interface number, issues the
framework's remove on it, and reports whether such a child was found.
`hasChildWithId` is the found test and `removeChildByIdList` removes the
first child owning the interface. -/
def hasChildWithId (children : List Child) (id : Nat) : Bool :=
  children.any fun c => c.nums.contains id

/-- Modelled from the spec: the removal half of
`usb_device_remove_interface_by_id_locked`; drops the first child owning
interface `id` (the framework's remove is issued on exactly that child). -/
def removeChildByIdList : List Child → Nat → List Child
  | [], _ => []
  | c :: cs, id => if c.nums.contains id then cs else c :: removeChildByIdList cs id

/-- Embedding of `usb_device_claim_interface` (usb-device.c lines 132-152;
usb-composite.c lines 75-95 are textually identical).  The C code indexes
`interface_statuses[interface_id]` with no bounds check; the embedding
performs the read through `List.get?` and returns `none` exactly when the
C access would be out of bounds.  On an in-bounds read the result carries
the returned `zx_status_t`, the updated registry, and how many times the
framework's remove was invoked. -/
def usb_device_claim_interface (st : DevState) (interface_id : Nat) :
    Option (Int × DevState × Nat) :=
  match st.statuses[interface_id]? with
  | none => none
  | some s =>
    if s = InterfaceStatus.CLAIMED then some (ZX_ERR_ALREADY_BOUND, st, 0)
    else if s = InterfaceStatus.CHILD_DEVICE then
      if hasChildWithId st.children interface_id then
        some (ZX_OK,
          { statuses := st.statuses.set interface_id InterfaceStatus.CLAIMED,
            children := removeChildByIdList st.children interface_id }, 1)
      else some (ZX_ERR_BAD_STATE, st, 0)
    else
      some (ZX_OK,
        { st with statuses := st.statuses.set interface_id InterfaceStatus.CLAIMED }, 0)

/-! ### The descriptor walker, `usb_device_add_interfaces` -/

/-- The inner loop of the interface-association branch (usb-device.c lines
372-387): starting at `next`, advance descriptor by descriptor; stop at
another IAD, at end of blob, or at a top-level interface once `count`
top-level interfaces have been consumed.  Returns the stop offset, or
`none` when the fuel runs out (in the C code the loop then never exits,
since each modelled step is exactly one C iteration). -/
def assocEnd (blob : List Nat) (endOff : Nat) : Nat → Nat → Nat → Option Nat
  | 0, _, _ => none
  | fuel + 1, next, count =>
    if next < endOff then
      if dType blob next = USB_DT_INTERFACE_ASSOCIATION then some next
      else if dType blob next = USB_DT_INTERFACE ∧ dAltSetting blob next = 0 then
        if count = 0 then some next
        else assocEnd blob endOff fuel (next + dLen blob next) (count - 1)
      else assocEnd blob endOff fuel (next + dLen blob next) count
    else some next

/-- The inner loop of the single-interface branch (usb-device.c lines
403-414): advance until the next top-level interface descriptor
(`bDescriptorType = USB_DT_INTERFACE` and `bAlternateSetting = 0`) or end
of blob.  Note the loop does not stop at an interface association
descriptor. -/
def intfEnd (blob : List Nat) (endOff : Nat) : Nat → Nat → Option Nat
  | 0, _ => none
  | fuel + 1, next =>
    if next < endOff then
      if dType blob next = USB_DT_INTERFACE ∧ dAltSetting blob next = 0 then some next
      else intfEnd blob endOff fuel (next + dLen blob next)
    else some next

/-- One emission of the walker: a group span handed to
`usb_device_add_interface` or `usb_device_add_interface_association`, or
the span of a top-level descriptor skipped by the final `else` branch of
the walk (usb-device.c line 448). -/
inductive Item where
  | group (sp : Nat × Nat)
  | skipped (sp : Nat × Nat)
deriving DecidableEq

/-- The byte span of an `Item`. -/
def Item.span : Item → Nat × Nat
  | .group sp => sp
  | .skipped sp => sp

/-- Modelled from the spec: the effect of
`usb_device_add_interface_association` (usb-interface.c, not under src/)
on the registry.  Per section 3 and scenario 2 of the spec the call
publishes one child spanning the group, owning the group's top-level
interface numbers, and interfaces of the group that are `Available`
become `PublishedChild`; per the registry publish contract of section 4.2
an interface that is not `Available` is left untouched.  Out-of-range
interface numbers leave the statuses array unchanged (`List.set` is the
identity out of range). -/
def assocPublish (st : DevState) (nums : List Nat) (sp : Nat × Nat) : DevState :=
  { statuses :=
      nums.foldl
        (fun s n =>
          if s[n]? = some InterfaceStatus.AVAILABLE then
            s.set n InterfaceStatus.CHILD_DEVICE
          else s)
        st.statuses,
    children := st.children ++ [{ kind := ChildKind.assoc, nums := nums, span := sp }] }

/-- Sequential embedding of the single-interface publication (usb-device.c
lines 416-445): read `interface_statuses[bInterfaceNumber]`; if
`AVAILABLE`, publish the child (the `usb_device_add_interface` call,
modelled from the spec as appending the child record, since
usb-interface.c is not under src/), then re-check the status and either
retract the fresh child (if it became `CLAIMED` in the publish window;
sequentially unreachable) or mark it `CHILD_DEVICE`.  The C status read
is unchecked array indexing; an out-of-range number is modelled as the
no-publish branch. -/
def intfPublishStep (st : DevState) (n : Nat) (sp : Nat × Nat) : DevState :=
  if st.statuses[n]? = some InterfaceStatus.AVAILABLE then
    let st1 : DevState :=
      { st with children := st.children ++ [{ kind := ChildKind.single, nums := [n], span := sp }] }
    if st1.statuses[n]? = some InterfaceStatus.CLAIMED then
      { st1 with children := removeChildByIdList st1.children n }
    else
      { st1 with statuses := st1.statuses.set n InterfaceStatus.CHILD_DEVICE }
  else st

/-- The walk loop of `usb_device_add_interfaces` (usb-device.c lines
355-453; usb-composite.c lines 156-254 are textually identical).  `header`
starts at `NEXT_DESCRIPTOR(config)` and the loop runs while
`header < endOff` where `endOff` is `wTotalLength`.  Each iteration either
emits an interface-association group, emits a single-interface group (its
publication gated by the interface status), or skips one descriptor by
`bLength`.  `none` means the fuel ran out; since every recursive call
models exactly one C iteration, a result of `none` for every fuel means
the C loop never terminates.  Allocation failures (`ZX_ERR_NO_MEMORY`)
and per-interface publish statuses are not modelled; the walk returns the
emissions in order together with the final registry state. -/
def walkAux (blob : List Nat) (endOff : Nat) :
    Nat → Nat → DevState → Option (List Item × DevState)
  | 0, _, _ => none
  | fuel + 1, header, st =>
    if header < endOff then
      if dType blob header = USB_DT_INTERFACE_ASSOCIATION then
        match assocEnd blob endOff (fuel + 1) (header + dLen blob header)
            (dIadCount blob header) with
        | none => none
        | some e =>
          let nums := topNumsAux blob e e (header + dLen blob header)
          match walkAux blob endOff fuel e (assocPublish st nums (header, e)) with
          | none => none
          | some (items, st') => some (Item.group (header, e) :: items, st')
      else if dType blob header = USB_DT_INTERFACE then
        match intfEnd blob endOff (fuel + 1) (header + dLen blob header) with
        | none => none
        | some e =>
          match walkAux blob endOff fuel e
              (intfPublishStep st (dIntfNum blob header) (header, e)) with
          | none => none
          | some (items, st') => some (Item.group (header, e) :: items, st')
      else
        match walkAux blob endOff fuel (header + dLen blob header) st with
        | none => none
        | some (items, st') =>
          some (Item.skipped (header, header + dLen blob header) :: items, st')
    else some ([], st)

/-- Embedding of `usb_device_add_interfaces` applied to one configuration
blob: the walk starts at `NEXT_DESCRIPTOR(config)`, i.e. at offset
`config->bLength`, and ends at `wTotalLength`. -/
def usb_device_add_interfaces (st : DevState) (blob : List Nat) (fuel : Nat) :
    Option (List Item × DevState) :=
  walkAux blob (wTotalLength blob) fuel (dLen blob 0) st

/-- The group spans of a walk emission list (the spans handed to
`usb_device_add_interface` and `usb_device_add_interface_association`),
without the spans of descriptors the walk skipped. -/
def groupSpans (items : List Item) : List (Nat × Nat) :=
  items.filterMap fun it =>
    match it with
    | Item.group sp => some sp
    | Item.skipped _ => none

/-! ### Configuration switching, `usb_device_set_configuration` -/

/-- Embedding of `usb_device_set_configuration` (usb-device.c lines
641-673; usb-composite.c lines 97-128 are the same logic with the control
transfer issued through the device protocol).  `controlStatus` is the
result of the `SET_CONFIGURATION` control transfer, an environment input.
The C code ends with `memset(dev->interface_statuses, 0,
config_desc->bNumInterfaces * sizeof(interface_status_t))`, which writes
the new configuration's `bNumInterfaces` entries into the array that was
allocated for the configuration active at `usb_device_add` time and is
never reallocated; the embedding keeps the array length and returns
`none` if the memset would write past the allocation (heap overflow in
the C code).  The outer `none` also covers a diverging walk. -/
def usb_device_set_configuration (dev : Device) (config : Nat) (controlStatus : Int)
    (fuel : Nat) : Option (Int × Device) :=
  match dev.configDescs.findIdx? (fun d => bConfigurationValue d == config) with
  | none => some (ZX_ERR_INVALID_ARGS, dev)
  | some i =>
    if controlStatus < 0 then some (controlStatus, dev)
    else
      let cfg := dev.configDescs.getD i []
      let n := bNumInterfaces cfg
      if n ≤ dev.state.statuses.length then
        let st1 : DevState :=
          { statuses :=
              List.replicate n InterfaceStatus.AVAILABLE ++ dev.state.statuses.drop n,
            children := [] }
        match usb_device_add_interfaces st1 cfg fuel with
        | none => none
        | some (_, st2) =>
          some (ZX_OK, { dev with currentConfigIndex := i, state := st2 })
      else none

/-! ### Control transfers, `usb_device_control` -/

/-- Observable steps of the tail of `usb_device_control`, in program
order: resetting the transfer-local completion event, the
`usb_hci_cancel_all(hci, device_id, 0)` call, the deadline-free
`sync_completion_wait(&completion, ZX_TIME_INFINITE)`, the copy of IN
data back to the caller, and returning the request to the pool or to the
allocator. -/
inductive CtrlAction where
  | clearEvent
  | cancelAll
  | waitForever
  | copyOut
  | pool
  | release
deriving DecidableEq

/-- Embedding of the completion handling of `usb_device_control`
(usb-device.c lines 574-602), from the return of
`sync_completion_wait(&completion, timeout)` to the function's return.
The environment inputs are the wait result, the request's
`response.status`, the result of `usb_hci_cancel_all`, whether the
request came from the free pool (`length == 0`), the transfer direction,
and `length`.  Returns the final status and the trace of observable
actions in order. -/
def usb_device_control_tail (waitStatus respStatus cancelStatus : Int)
    (useFreeList isOut : Bool) (length : Nat) : Int × List CtrlAction :=
  let stTrace :=
    if waitStatus = ZX_OK then (respStatus, ([] : List CtrlAction))
    else if waitStatus = ZX_ERR_TIMED_OUT then
      if cancelStatus = ZX_OK then
        (ZX_ERR_TIMED_OUT,
          [CtrlAction.clearEvent, CtrlAction.cancelAll, CtrlAction.waitForever])
      else (cancelStatus, [CtrlAction.clearEvent, CtrlAction.cancelAll])
    else (waitStatus, [])
  let trace2 :=
    if stTrace.1 = ZX_OK ∧ ¬isOut ∧ 0 < length then stTrace.2 ++ [CtrlAction.copyOut]
    else stTrace.2
  (stTrace.1, trace2 ++ [if useFreeList then CtrlAction.pool else CtrlAction.release])

/-! ### The request relay, `usb_device_request_queue` and `request_complete` -/

/-- The fields of `usb_request_t` the relay manipulates: the completion
callback and cookie, the saved copies, and the stamped device id.
Callbacks and cookies are opaque and modelled as numbers. -/
structure UsbRequest where
  completeCb : Nat
  cookie : Nat
  savedCompleteCb : Nat
  savedCookie : Nat
  deviceId : Nat
deriving DecidableEq

/-- Embedding of `usb_device_request_queue` (usb-device.c lines 605-619):
stamp the device id, save the client's callback and cookie into the saved
fields, then overwrite them with the relay's callback (`request_complete`)
and the device pointer; `relayCb` and `relayCookie` stand for those two
values.  The returned request is what is handed to
`usb_hci_request_queue`. -/
def usb_device_request_queue (deviceId relayCb relayCookie : Nat) (req : UsbRequest) :
    UsbRequest :=
  { req with
    deviceId := deviceId,
    savedCompleteCb := req.completeCb,
    savedCookie := req.cookie,
    completeCb := relayCb,
    cookie := relayCookie }

/-- Embedding of `request_complete` (usb-device.c lines 86-96), the
relay's HCI completion callback: restore the client callback and cookie
from the saved fields, then append the request to the `completed_reqs`
list consumed by the callback thread. -/
def request_complete (completedReqs : List UsbRequest) (req : UsbRequest) :
    List UsbRequest :=
  completedReqs ++
    [{ req with completeCb := req.savedCompleteCb, cookie := req.savedCookie }]

/-! ### The ioctl surface, `usb_device_ioctl` -/

/-- The ioctl operations modelled from `usb_device_ioctl` (usb-device.c
lines 189-324); the remaining cases are structurally identical to one of
these. -/
inductive IoctlOp where
  | getDeviceSpeed
  | getConfigDescSize
  | getDescriptorsSize
  | getConfiguration
deriving DecidableEq

/-- A number laid out as 4 little-endian bytes, the write of an `int`
reply through `int* reply = out_buf`. -/
def leBytes4 (n : Nat) : List Nat :=
  [n % 256, n / 256 % 256, n / 65536 % 256, n / 16777216 % 256]

/-- Little-endian decoding of a 4-byte `int` input buffer. -/
def leDecode4 (l : List Nat) : Nat :=
  l.getD 0 0 + 256 * l.getD 1 0 + 65536 * l.getD 2 0 + 16777216 * l.getD 3 0

/-- Embedding of `get_config_desc` (usb-device.c lines 110-119): the first
configuration blob whose `bConfigurationValue` equals `config`. -/
def get_config_desc (dev : Device) (config : Nat) : Option (List Nat) :=
  dev.configDescs.find? fun d => bConfigurationValue d == config

/-- Embedding of `usb_device_ioctl` (usb-device.c lines 189-324) for the
modelled operations.  The result is the returned `zx_status_t` together
with the bytes the handler wrote into `out_buf` (empty when it wrote
nothing).  `IOCTL_USB_GET_DEVICE_SPEED` (lines 201-207) and
`IOCTL_USB_GET_DESCRIPTORS_SIZE` (lines 227-234) check `out_len` before
writing; `IOCTL_USB_GET_CONFIG_DESC_SIZE` (lines 215-226) writes its
4-byte reply with no `out_len` check at all;
`IOCTL_USB_GET_CONFIGURATION` (lines 307-314) rejects a wrong-sized
buffer with `ZX_ERR_INVALID_ARGS`. -/
def usb_device_ioctl (dev : Device) (op : IoctlOp) (inBuf : List Nat) (outLen : Nat) :
    Int × List Nat :=
  match op with
  | IoctlOp.getDeviceSpeed =>
    if outLen < 4 then (ZX_ERR_BUFFER_TOO_SMALL, [])
    else (ZX_OK, leBytes4 dev.speed)
  | IoctlOp.getConfigDescSize =>
    if inBuf.length ≠ 4 then (ZX_ERR_INVALID_ARGS, [])
    else
      match get_config_desc dev (leDecode4 inBuf) with
      | none => (ZX_ERR_INVALID_ARGS, [])
      | some d => (ZX_OK, leBytes4 (wTotalLength d))
  | IoctlOp.getDescriptorsSize =>
    let d := dev.configDescs.getD dev.currentConfigIndex []
    if outLen < 4 then (ZX_ERR_BUFFER_TOO_SMALL, [])
    else (ZX_OK, leBytes4 (wTotalLength d))
  | IoctlOp.getConfiguration =>
    if outLen ≠ 4 then (ZX_ERR_INVALID_ARGS, [])
    else
      let d := dev.configDescs.getD dev.currentConfigIndex []
      (ZX_OK, leBytes4 (bConfigurationValue d))

/-! ### Operation sequences over the registry (for the epoch invariants) -/

/-- One registry operation within a configuration epoch: a
`usb_device_claim_interface` call or a `usb_device_add_interfaces` walk. -/
inductive DevOp where
  | claimOp (id : Nat)
  | addIntfOp (blob : List Nat) (fuel : Nat)

/-- Apply one registry operation; a failed claim and an exhausted walk
leave the state unchanged (in the C code, an out-of-bounds claim is
undefined behaviour and a diverging walk never returns). -/
def applyOp (st : DevState) : DevOp → DevState
  | DevOp.claimOp id =>
    match usb_device_claim_interface st id with
    | some (_, st', _) => st'
    | none => st
  | DevOp.addIntfOp blob fuel =>
    match usb_device_add_interfaces st blob fuel with
    | some (_, st') => st'
    | none => st

/-- Run a sequence of registry operations. -/
def runOps (st : DevState) (ops : List DevOp) : DevState := ops.foldl applyOp st

/-- No single-interface child owning interface `i` is published. -/
def singleClean (st : DevState) (i : Nat) : Prop :=
  ∀ c ∈ st.children, c.kind = ChildKind.single → ¬ c.nums.contains i

/-! ### Concrete configuration blobs and devices used by the proofs -/

/-- An 11-byte configuration blob whose single descriptor after the
9-byte header (at offset 9) has `bLength = 0` and `bDescriptorType =
0xFF`: header `[9, 2, wTotalLength = 11 LE, bNumInterfaces = 0,
bConfigurationValue = 1, 0, 0, 0]`, then `[0, 255]`. -/
def blobZeroLen : List Nat := [9, 2, 11, 0, 0, 1, 0, 0, 0, 0, 255]

/-- A 9-byte configuration blob that is just the header:
`bNumInterfaces = 2`, `bConfigurationValue = 1`, `wTotalLength = 9`. -/
def blobHdrOnly : List Nat := [9, 2, 9, 0, 2, 1, 0, 0, 0]

/-- An 18-byte configuration blob: header (`bNumInterfaces = 1`,
`bConfigurationValue = 2`, `wTotalLength = 18`) followed by one top-level
interface descriptor with `bInterfaceNumber = 0`. -/
def blobOneIntf : List Nat := [9, 2, 18, 0, 1, 2, 0, 0, 0, 9, 4, 0, 0, 0, 0, 0, 0, 0]

/-- A 20-byte well-formed configuration blob: header (`wTotalLength = 20`),
then a 2-byte class-specific descriptor (type 0x21) at top level, then one
top-level interface descriptor. -/
def blobSkip : List Nat := [9, 2, 20, 0, 1, 1, 0, 0, 0, 2, 33, 9, 4, 0, 0, 0, 0, 0, 0, 0]

/-- A 26-byte well-formed configuration blob: header (`wTotalLength = 26`),
then an interface association descriptor with `bInterfaceCount = 2`, then
only one top-level interface descriptor. -/
def blobShortIad : List Nat :=
  [9, 2, 26, 0, 1, 1, 0, 0, 0, 8, 11, 0, 2, 0, 0, 0, 0, 9, 4, 0, 0, 0, 0, 0, 0, 0]

/-- A 26-byte well-formed configuration blob: header, then an interface
association descriptor with `bInterfaceCount = 1`, then one top-level
interface descriptor. -/
def blobIadOne : List Nat :=
  [9, 2, 26, 0, 1, 1, 0, 0, 0, 8, 11, 0, 1, 0, 0, 0, 0, 9, 4, 0, 0, 0, 0, 0, 0, 0]

/-- A 35-byte well-formed configuration blob: header (`bNumInterfaces = 2`),
an interface association descriptor with `bFirstInterface = 0` and
`bInterfaceCount = 2`, then top-level interface descriptors 0 and 1. -/
def blobIadPair : List Nat :=
  [9, 2, 35, 0, 2, 1, 0, 0, 0, 8, 11, 0, 2, 0, 0, 0, 0,
   9, 4, 0, 0, 0, 0, 0, 0, 0, 9, 4, 1, 0, 0, 0, 0, 0, 0]

/-- A registry with two available interfaces and no children. -/
def stAvailPair : DevState :=
  { statuses := [InterfaceStatus.AVAILABLE, InterfaceStatus.AVAILABLE], children := [] }

/-- A registry with one published child owning interface 0. -/
def stChildZero : DevState :=
  { statuses := [InterfaceStatus.CHILD_DEVICE],
    children := [{ kind := ChildKind.single, nums := [0], span := (9, 18) }] }

/-- A device holding two configurations (values 1 and 2), currently on the
first (two interfaces, both published as children). -/
def devTwoConfigs : Device :=
  { speed := 2, configDescs := [blobHdrOnly, blobOneIntf], currentConfigIndex := 0,
    state := { statuses := [InterfaceStatus.CHILD_DEVICE, InterfaceStatus.CHILD_DEVICE],
               children := [{ kind := ChildKind.single, nums := [0], span := (9, 9) },
                            { kind := ChildKind.single, nums := [1], span := (9, 9) }] } }

/-- A device holding one configuration with `bConfigurationValue = 2` and
`wTotalLength = 18`. -/
def devOneConfig : Device :=
  { speed := 2, configDescs := [blobOneIntf], currentConfigIndex := 0,
    state := { statuses := [InterfaceStatus.CHILD_DEVICE], children := [] } }

/-! ### Tiling lemmas -/

theorem tilesFromAux_tiling (blob : List Nat) (total : Nat) :
    ∀ fuel o, tilesFromAux blob total fuel o = true → Tiling blob total o := by
  intro fuel
  induction fuel with
  | zero =>
    intro o h
    have : o = total := by simpa [tilesFromAux] using h
    exact this ▸ Tiling.done
  | succ n ih =>
    intro o h
    by_cases ho : o < total
    · rw [tilesFromAux, if_pos ho] at h
      simp only [Bool.and_eq_true, decide_eq_true_eq] at h
      exact Tiling.step ho h.1.1 h.1.2 (ih _ h.2)
    · rw [tilesFromAux, if_neg ho] at h
      have : o = total := by simpa using h
      exact this ▸ Tiling.done

theorem tiling_at_end {blob : List Nat} {total o : Nat} (h : Tiling blob total o)
    (ho : ¬ o < total) : o = total := by
  cases h with
  | done => rfl
  | step h1 _ _ _ => exact absurd h1 ho

theorem tiling_step_inv {blob : List Nat} {total o : Nat} (h : Tiling blob total o)
    (ho : o < total) :
    2 ≤ dLen blob o ∧ o + dLen blob o ≤ total ∧ Tiling blob total (o + dLen blob o) := by
  cases h with
  | done => exact absurd ho (lt_irrefl _)
  | step _ h2 h3 h4 => exact ⟨h2, h3, h4⟩

/-! ### Counting top-level interfaces -/

theorem topNumsAux_fuel_irrel (blob : List Nat) (b : Nat) :
    ∀ f g a, b - a ≤ f → b - a ≤ g → topNumsAux blob b f a = topNumsAux blob b g a := by
  intro f
  induction f with
  | zero =>
    intro g a hf _
    have hba : ¬ a < b := by omega
    cases g with
    | zero => rfl
    | succ g' => simp [topNumsAux, hba]
  | succ f' ih =>
    intro g a hf hg
    by_cases hab : a < b
    · cases g with
      | zero => omega
      | succ g' =>
        simp only [topNumsAux, if_pos hab]
        by_cases hL : 0 < dLen blob a
        · rw [if_pos hL, if_pos hL, ih g' (a + dLen blob a) (by omega) (by omega)]
        · rw [if_neg hL, if_neg hL]
    · cases g with
      | zero => simp [topNumsAux, hab]
      | succ g' => simp only [topNumsAux, if_neg hab]

theorem topIntfCount_end (blob : List Nat) {a b : Nat} (h : b ≤ a) :
    topIntfCount blob a b = 0 := by
  unfold topIntfCount
  cases hb : b with
  | zero => simp [topNumsAux]
  | succ b' => rw [topNumsAux, if_neg (by omega)]; rfl

theorem topIntfCount_step (blob : List Nat) {a b : Nat} (hab : a < b)
    (hL : 0 < dLen blob a) :
    topIntfCount blob a b =
      (if dType blob a = USB_DT_INTERFACE ∧ dAltSetting blob a = 0 then 1 else 0) +
        topIntfCount blob (a + dLen blob a) b := by
  unfold topIntfCount
  cases hb : b with
  | zero => omega
  | succ b' =>
    rw [topNumsAux, if_pos (hb ▸ hab), if_pos hL,
      topNumsAux_fuel_irrel blob (b' + 1) b' (b' + 1) (a + dLen blob a)
        (by omega) (by omega)]
    by_cases ht : dType blob a = USB_DT_INTERFACE ∧ dAltSetting blob a = 0
    · rw [if_pos ht, if_pos ht]; simp [Nat.add_comm]
    · rw [if_neg ht, if_neg ht]; simp

/-! ### The inner loops terminate on tiled blobs and stop on boundaries -/

theorem intfEnd_spec (blob : List Nat) (total : Nat) :
    ∀ fuel next, Tiling blob total next → total - next < fuel →
    ∃ e, intfEnd blob total fuel next = some e ∧ next ≤ e ∧ e ≤ total ∧
      Tiling blob total e ∧
      (e = total ∨ (dType blob e = USB_DT_INTERFACE ∧ dAltSetting blob e = 0)) := by
  intro fuel
  induction fuel with
  | zero => intro next _ h; omega
  | succ f ih =>
    intro next ht hf
    by_cases hn : next < total
    · obtain ⟨hL, hle, ht'⟩ := tiling_step_inv ht hn
      by_cases hc : dType blob next = USB_DT_INTERFACE ∧ dAltSetting blob next = 0
      · exact ⟨next, by simp only [intfEnd, if_pos hn, if_pos hc], le_refl _,
          le_of_lt hn, ht, Or.inr hc⟩
      · obtain ⟨e, he, h1, h2, h3, h4⟩ := ih (next + dLen blob next) ht' (by omega)
        exact ⟨e, by simp only [intfEnd, if_pos hn, if_neg hc]; exact he,
          by omega, h2, h3, h4⟩
    · have heq := tiling_at_end ht hn
      exact ⟨next, by simp only [intfEnd, if_neg hn], le_refl _, le_of_eq heq, ht,
        Or.inl heq⟩

theorem assocEnd_spec (blob : List Nat) (total : Nat) :
    ∀ fuel next count, Tiling blob total next → total - next < fuel →
    ∃ e, assocEnd blob total fuel next count = some e ∧ next ≤ e ∧ e ≤ total ∧
      Tiling blob total e ∧
      (e = total ∨ dType blob e = USB_DT_INTERFACE_ASSOCIATION ∨
        (dType blob e = USB_DT_INTERFACE ∧ dAltSetting blob e = 0)) ∧
      (topIntfCount blob next e = count ∨
        (topIntfCount blob next e < count ∧
          (e = total ∨ dType blob e = USB_DT_INTERFACE_ASSOCIATION))) := by
  intro fuel
  induction fuel with
  | zero => intro next _ _ h; omega
  | succ f ih =>
    intro next count ht hf
    by_cases hn : next < total
    · obtain ⟨hL, hle, ht'⟩ := tiling_step_inv ht hn
      by_cases hIad : dType blob next = USB_DT_INTERFACE_ASSOCIATION
      · refine ⟨next, by simp only [assocEnd, if_pos hn, if_pos hIad], le_refl _,
          le_of_lt hn, ht, Or.inr (Or.inl hIad), ?_⟩
        rw [topIntfCount_end blob (le_refl next)]
        by_cases hc0 : count = 0
        · exact Or.inl hc0.symm
        · exact Or.inr ⟨by omega, Or.inr hIad⟩
      · by_cases hTop : dType blob next = USB_DT_INTERFACE ∧ dAltSetting blob next = 0
        · by_cases hc0 : count = 0
          · refine ⟨next, ?_, le_refl _, le_of_lt hn, ht, Or.inr (Or.inr hTop), ?_⟩
            · simp only [assocEnd, if_pos hn, if_neg hIad, if_pos hTop, if_pos hc0]
            · rw [topIntfCount_end blob (le_refl next)]
              exact Or.inl hc0.symm
          · obtain ⟨e, he, h1, h2, h3, h4, h5⟩ :=
              ih (next + dLen blob next) (count - 1) ht' (by omega)
            refine ⟨e, ?_, by omega, h2, h3, h4, ?_⟩
            · simp only [assocEnd, if_pos hn, if_neg hIad, if_pos hTop, if_neg hc0]
              exact he
            · rw [topIntfCount_step blob (by omega : next < e) (by omega), if_pos hTop]
              rcases h5 with h5 | ⟨h5a, h5b⟩
              · exact Or.inl (by omega)
              · exact Or.inr ⟨by omega, h5b⟩
        · obtain ⟨e, he, h1, h2, h3, h4, h5⟩ := ih (next + dLen blob next) count ht' (by omega)
          refine ⟨e, ?_, by omega, h2, h3, h4, ?_⟩
          · simp only [assocEnd, if_pos hn, if_neg hIad, if_neg hTop]
            exact he
          · rw [topIntfCount_step blob (by omega : next < e) (by omega), if_neg hTop]
            simpa using h5
    · have heq := tiling_at_end ht hn
      refine ⟨next, by simp only [assocEnd, if_neg hn], le_refl _, le_of_eq heq, ht,
        Or.inl heq, ?_⟩
      rw [topIntfCount_end blob (le_refl next)]
      by_cases hc0 : count = 0
      · exact Or.inl hc0.symm
      · exact Or.inr ⟨by omega, Or.inl heq⟩

/-! ### Span chains and byte coverage -/

/-- The spans in `l`, in order, exactly tile the offset range from `a` to
`b` with no gap and no overlap. -/
def Chained : List (Nat × Nat) → Nat → Nat → Prop
  | [], a, b => a = b
  | sp :: l, a, b => sp.1 = a ∧ a ≤ sp.2 ∧ Chained l sp.2 b

theorem chained_le : ∀ (l : List (Nat × Nat)) (a b : Nat), Chained l a b → a ≤ b := by
  intro l
  induction l with
  | nil => intro a b h; exact le_of_eq h
  | cons sp l ih =>
    intro a b h
    exact le_trans h.2.1 (ih _ _ h.2.2)

theorem chained_join (blob : List Nat) :
    ∀ (l : List (Nat × Nat)) (a b : Nat), Chained l a b →
    (l.map fun sp => sliceBytes blob sp.1 sp.2).flatten = sliceBytes blob a b := by
  intro l
  induction l with
  | nil =>
    intro a b h
    have hab : a = b := h
    rw [hab]
    simp [sliceBytes, Nat.sub_self]
  | cons sp l ih =>
    intro a b h
    obtain ⟨h1, h2, h3⟩ := h
    have hab : sp.2 ≤ b := chained_le l sp.2 b h3
    simp only [List.map_cons, List.flatten_cons, ih _ _ h3, h1]
    unfold sliceBytes
    rw [show blob.drop sp.2 = (blob.drop a).drop (sp.2 - a) by
        rw [List.drop_drop]; congr 1; omega]
    rw [show b - a = (sp.2 - a) + (b - sp.2) by omega, List.take_add]

/-- The walker succeeds on tiled input given enough fuel, and its
emissions (groups and skipped descriptors together) tile the walked byte
range exactly. -/
theorem walk_chained (blob : List Nat) (total : Nat) :
    ∀ fuel h st, Tiling blob total h → total - h < fuel →
    ∃ items st', walkAux blob total fuel h st = some (items, st') ∧
      Chained (items.map Item.span) h total := by
  intro fuel
  induction fuel with
  | zero => intro h st _ hf; omega
  | succ f ih =>
    intro h st ht hf
    by_cases hn : h < total
    · obtain ⟨hL, hle, ht'⟩ := tiling_step_inv ht hn
      by_cases hIad : dType blob h = USB_DT_INTERFACE_ASSOCIATION
      · obtain ⟨e, he, h1, h2, h3, _, _⟩ :=
          assocEnd_spec blob total (f + 1) (h + dLen blob h) (dIadCount blob h) ht'
            (by omega)
        obtain ⟨items, st', hw, hch⟩ :=
          ih e (assocPublish st (topNumsAux blob e e (h + dLen blob h)) (h, e)) h3
            (by omega)
        refine ⟨Item.group (h, e) :: items, st', ?_, ?_⟩
        · simp only [walkAux, if_pos hn, if_pos hIad, he, hw]
        · simp only [List.map_cons, Item.span]
          exact ⟨rfl, by omega, hch⟩
      · by_cases hIntf : dType blob h = USB_DT_INTERFACE
        · obtain ⟨e, he, h1, h2, h3, _⟩ :=
            intfEnd_spec blob total (f + 1) (h + dLen blob h) ht' (by omega)
          obtain ⟨items, st', hw, hch⟩ :=
            ih e (intfPublishStep st (dIntfNum blob h) (h, e)) h3 (by omega)
          refine ⟨Item.group (h, e) :: items, st', ?_, ?_⟩
          · simp only [walkAux, if_pos hn, if_neg hIad, if_pos hIntf, he, hw]
          · simp only [List.map_cons, Item.span]
            exact ⟨rfl, by omega, hch⟩
        · obtain ⟨items, st', hw, hch⟩ := ih (h + dLen blob h) st ht' (by omega)
          refine ⟨Item.skipped (h, h + dLen blob h) :: items, st', ?_, ?_⟩
          · simp only [walkAux, if_neg hIad, if_neg hIntf, if_pos hn, hw]
          · simp only [List.map_cons, Item.span]
            exact ⟨rfl, by omega, hch⟩
    · have heq := tiling_at_end ht hn
      exact ⟨[], st, by simp only [walkAux, if_neg hn], heq⟩

/-! ### Registry invariants: a claimed interface stays claimed -/

theorem removeChildByIdList_mem {c : Child} :
    ∀ (l : List Child) (n : Nat), c ∈ removeChildByIdList l n → c ∈ l := by
  intro l
  induction l with
  | nil => intro n h; exact absurd h (List.not_mem_nil c)
  | cons d l ih =>
    intro n h
    rw [removeChildByIdList] at h
    by_cases hd : d.nums.contains n
    · rw [if_pos hd] at h
      exact List.mem_cons_of_mem d h
    · rw [if_neg hd] at h
      rcases List.mem_cons.mp h with h | h
      · exact h ▸ List.mem_cons_self d l
      · exact List.mem_cons_of_mem d (ih n h)

theorem mark_foldl_claimed (i : Nat) :
    ∀ (nums : List Nat) (s : List InterfaceStatus),
    s[i]? = some InterfaceStatus.CLAIMED →
    (nums.foldl
      (fun s n =>
        if s[n]? = some InterfaceStatus.AVAILABLE then
          s.set n InterfaceStatus.CHILD_DEVICE
        else s) s)[i]? = some InterfaceStatus.CLAIMED := by
  intro nums
  induction nums with
  | nil => intro s h; exact h
  | cons n ns ih =>
    intro s h
    rw [List.foldl_cons]
    apply ih
    by_cases hc : s[n]? = some InterfaceStatus.AVAILABLE
    · rw [if_pos hc]
      have hne : n ≠ i := by
        intro he
        rw [he, h] at hc
        exact absurd (Option.some.inj hc) (by intro hx; cases hx)
      rw [List.getElem?_set_ne hne]
      exact h
    · rw [if_neg hc]; exact h

theorem assocPublish_inv {st : DevState} {i : Nat}
    (hcl : st.statuses[i]? = some InterfaceStatus.CLAIMED) (hs : singleClean st i)
    (nums : List Nat) (sp : Nat × Nat) :
    (assocPublish st nums sp).statuses[i]? = some InterfaceStatus.CLAIMED ∧
      singleClean (assocPublish st nums sp) i := by
  constructor
  · exact mark_foldl_claimed i nums st.statuses hcl
  · intro c hc hk
    rcases List.mem_append.mp hc with hc | hc
    · exact hs c hc hk
    · rcases List.mem_singleton.mp hc with rfl
      cases hk

theorem intfPublishStep_inv {st : DevState} {i : Nat}
    (hcl : st.statuses[i]? = some InterfaceStatus.CLAIMED) (hs : singleClean st i)
    (n : Nat) (sp : Nat × Nat) :
    (intfPublishStep st n sp).statuses[i]? = some InterfaceStatus.CLAIMED ∧
      singleClean (intfPublishStep st n sp) i := by
  unfold intfPublishStep
  by_cases hc : st.statuses[n]? = some InterfaceStatus.AVAILABLE
  · have hne : n ≠ i := by
      intro he
      rw [he, hcl] at hc
      exact absurd (Option.some.inj hc) (by intro hx; cases hx)
    have hclean1 : singleClean
        { st with children := st.children ++
            [{ kind := ChildKind.single, nums := [n], span := sp }] } i := by
      intro c hcm hk
      rcases List.mem_append.mp hcm with hcm | hcm
      · exact hs c hcm hk
      · rcases List.mem_singleton.mp hcm with rfl
        simp [List.contains_cons]
        omega
    rw [if_pos hc]
    by_cases hc2 :
        st.statuses[n]? = some InterfaceStatus.CLAIMED
    · rw [hc] at hc2
      exact absurd (Option.some.inj hc2) (by intro hx; cases hx)
    · simp only [if_neg hc2]
      refine ⟨?_, ?_⟩
      · rw [List.getElem?_set_ne hne]
        exact hcl
      · intro c hcm hk
        exact hclean1 c hcm hk
  · rw [if_neg hc]
    exact ⟨hcl, hs⟩

theorem claim_result_inv {st : DevState} {i : Nat}
    (hcl : st.statuses[i]? = some InterfaceStatus.CLAIMED) (hs : singleClean st i)
    (j : Nat) {r : Int × DevState × Nat}
    (hr : usb_device_claim_interface st j = some r) :
    r.2.1.statuses[i]? = some InterfaceStatus.CLAIMED ∧ singleClean r.2.1 i := by
  unfold usb_device_claim_interface at hr
  have hset : (st.statuses.set j InterfaceStatus.CLAIMED)[i]? =
      some InterfaceStatus.CLAIMED := by
    by_cases hji : j = i
    · subst hji
      have hlt : j < st.statuses.length := by
        by_contra hge
        rw [List.getElem?_eq_none_iff.mpr (Nat.le_of_not_lt hge)] at hcl
        cases hcl
      simp [List.getElem?_set_self, hlt]
    · rw [List.getElem?_set_ne hji]
      exact hcl
  cases hgj : st.statuses[j]? with
  | none => rw [hgj] at hr; cases hr
  | some s =>
    rw [hgj] at hr
    simp only [] at hr
    by_cases h1 : s = InterfaceStatus.CLAIMED
    · rw [if_pos h1] at hr
      cases hr
      exact ⟨hcl, hs⟩
    · rw [if_neg h1] at hr
      by_cases h2 : s = InterfaceStatus.CHILD_DEVICE
      · rw [if_pos h2] at hr
        by_cases h3 : hasChildWithId st.children j
        · rw [if_pos h3] at hr
          cases hr
          refine ⟨hset, ?_⟩
          intro c hcm hk
          exact hs c (removeChildByIdList_mem st.children j hcm) hk
        · rw [if_neg h3] at hr
          cases hr
          exact ⟨hcl, hs⟩
      · rw [if_neg h2] at hr
        cases hr
        exact ⟨hset, hs⟩

theorem walk_inv (blob : List Nat) (endOff i : Nat) :
    ∀ fuel h st items st',
    st.statuses[i]? = some InterfaceStatus.CLAIMED → singleClean st i →
    walkAux blob endOff fuel h st = some (items, st') →
    st'.statuses[i]? = some InterfaceStatus.CLAIMED ∧ singleClean st' i := by
  intro fuel
  induction fuel with
  | zero =>
    intro h st items st' _ _ hw
    exact absurd hw (by simp [walkAux])
  | succ f ih =>
    intro h st items st' hcl hs hw
    rw [walkAux] at hw
    by_cases hn : h < endOff
    · rw [if_pos hn] at hw
      by_cases hIad : dType blob h = USB_DT_INTERFACE_ASSOCIATION
      · rw [if_pos hIad] at hw
        cases hae : assocEnd blob endOff (f + 1) (h + dLen blob h) (dIadCount blob h) with
        | none => simp only [hae] at hw; exact Option.noConfusion hw
        | some e =>
          simp only [hae] at hw
          cases hrec : walkAux blob endOff f e
              (assocPublish st (topNumsAux blob e e (h + dLen blob h)) (h, e)) with
          | none => simp only [hrec] at hw; exact Option.noConfusion hw
          | some p =>
            simp only [hrec] at hw
            obtain ⟨hinv1, hinv2⟩ :=
              assocPublish_inv hcl hs (topNumsAux blob e e (h + dLen blob h)) (h, e)
            obtain ⟨its2, st2⟩ := p
            obtain ⟨h1, h2⟩ := ih e _ its2 st2 hinv1 hinv2 hrec
            cases hw
            exact ⟨h1, h2⟩
      · rw [if_neg hIad] at hw
        by_cases hIntf : dType blob h = USB_DT_INTERFACE
        · rw [if_pos hIntf] at hw
          cases hie : intfEnd blob endOff (f + 1) (h + dLen blob h) with
          | none => simp only [hie] at hw; exact Option.noConfusion hw
          | some e =>
            simp only [hie] at hw
            cases hrec : walkAux blob endOff f e
                (intfPublishStep st (dIntfNum blob h) (h, e)) with
            | none => simp only [hrec] at hw; exact Option.noConfusion hw
            | some p =>
              simp only [hrec] at hw
              obtain ⟨hinv1, hinv2⟩ := intfPublishStep_inv hcl hs (dIntfNum blob h) (h, e)
              obtain ⟨its2, st2⟩ := p
              obtain ⟨h1, h2⟩ := ih e _ its2 st2 hinv1 hinv2 hrec
              cases hw
              exact ⟨h1, h2⟩
        · rw [if_neg hIntf] at hw
          cases hrec : walkAux blob endOff f (h + dLen blob h) st with
          | none => simp only [hrec] at hw; exact Option.noConfusion hw
          | some p =>
            simp only [hrec] at hw
            obtain ⟨its2, st2⟩ := p
            obtain ⟨h1, h2⟩ := ih (h + dLen blob h) st its2 st2 hcl hs hrec
            cases hw
            exact ⟨h1, h2⟩
    · rw [if_neg hn] at hw
      cases hw
      exact ⟨hcl, hs⟩

theorem apply_op_inv {st : DevState} {i : Nat}
    (hcl : st.statuses[i]? = some InterfaceStatus.CLAIMED) (hs : singleClean st i)
    (op : DevOp) :
    (applyOp st op).statuses[i]? = some InterfaceStatus.CLAIMED ∧
      singleClean (applyOp st op) i := by
  cases op with
  | claimOp j =>
    simp only [applyOp]
    cases hres : usb_device_claim_interface st j with
    | none => exact ⟨hcl, hs⟩
    | some r =>
      obtain ⟨s, st', k⟩ := r
      exact claim_result_inv hcl hs j hres
  | addIntfOp blob fuel =>
    simp only [applyOp, usb_device_add_interfaces]
    cases hw : walkAux blob (wTotalLength blob) fuel (dLen blob 0) st with
    | none => exact ⟨hcl, hs⟩
    | some p =>
      obtain ⟨items, st'⟩ := p
      exact walk_inv blob (wTotalLength blob) i fuel (dLen blob 0) st items st' hcl hs hw

theorem runOps_inv (i : Nat) :
    ∀ (ops : List DevOp) (st : DevState),
    st.statuses[i]? = some InterfaceStatus.CLAIMED → singleClean st i →
    (runOps st ops).statuses[i]? = some InterfaceStatus.CLAIMED ∧
      singleClean (runOps st ops) i := by
  intro ops
  induction ops with
  | nil => intro st h1 h2; exact ⟨h1, h2⟩
  | cons op ops ih =>
    intro st h1 h2
    rw [runOps, List.foldl_cons]
    obtain ⟨h1', h2'⟩ := apply_op_inv h1 h2 op
    exact ih (applyOp st op) h1' h2'

/-! ### The claims -/

/-- Claim C1: the claim states that a descriptor with `bLength = 0` is a
fatal parse error for the walk of `usb_device_add_interfaces` and that
the walk terminates on every blob.  The code has no such check: on
`blobZeroLen`, whose descriptor at offset 9 has `bLength = 0` and a
non-interface type, `NEXT_DESCRIPTOR` advances by zero bytes and the
`while (header < end)` loop never exits.  In the embedding every unit of
fuel is one loop iteration, so the walk returning `none` at every fuel
bound for every starting registry state is exactly non-termination of
the C loop. -/
theorem claim1_zero_blength_walk_diverges :
    ∀ fuel (st : DevState), usb_device_add_interfaces st blobZeroLen fuel = none := by
  intro fuel
  induction fuel with
  | zero => intro st; rfl
  | succ n ih =>
    intro st
    have ihn : walkAux blobZeroLen 11 n 9 st = none := ih st
    show (match walkAux blobZeroLen 11 n 9 st with
      | none => none
      | some (items, st') => some (Item.skipped (9, 9) :: items, st')) = none
    rw [ihn]

/-- Claim C2: the claim states that `usb_device_set_configuration` leaves
`interface_statuses` sized to the new configuration's `bNumInterfaces`
with every entry `Available`.  The code only memsets the first
`bNumInterfaces` entries of the array allocated for the configuration
chosen at `usb_device_add` time and never resizes it.  Evaluated on
`devTwoConfigs` (current configuration has 2 interfaces, target
configuration value 2 has `bNumInterfaces = 1`): the switch succeeds,
both children are removed and the new interface 0 is republished, but
the statuses array still has length 2 and its stale entry 1 still reads
`CHILD_DEVICE` even though no child owns interface 1 any more. -/
theorem claim2_statuses_not_resized :
    bNumInterfaces blobOneIntf = 1 ∧
    (usb_device_set_configuration devTwoConfigs 2 ZX_OK 40).map
      (fun r => (r.1, r.2.currentConfigIndex, r.2.state.statuses,
        r.2.state.children.any fun c => c.nums.contains 1))
      = some (ZX_OK, 1,
          [InterfaceStatus.CHILD_DEVICE, InterfaceStatus.CHILD_DEVICE], false) := by
  decide

/-- Claim C3: `usb_device_claim_interface` returns `ZX_ERR_ALREADY_BOUND`
with no state change when the status is `CLAIMED`; when the status is
`CHILD_DEVICE` it removes the child owning the interface (one framework
remove; `ZX_ERR_BAD_STATE` with no state change if no such child exists)
and then marks the interface `CLAIMED`; when the status is `AVAILABLE` it
marks the interface `CLAIMED` with no remove.  The third component of the
result counts framework-remove invocations. -/
theorem claim3_claim_interface_cases (st : DevState) (interface_id : Nat)
    (s : InterfaceStatus) (h : st.statuses[interface_id]? = some s) :
    (s = InterfaceStatus.CLAIMED →
      usb_device_claim_interface st interface_id = some (ZX_ERR_ALREADY_BOUND, st, 0)) ∧
    (s = InterfaceStatus.CHILD_DEVICE →
      (hasChildWithId st.children interface_id = true →
        usb_device_claim_interface st interface_id = some (ZX_OK,
          { statuses := st.statuses.set interface_id InterfaceStatus.CLAIMED,
            children := removeChildByIdList st.children interface_id }, 1)) ∧
      (hasChildWithId st.children interface_id = false →
        usb_device_claim_interface st interface_id = some (ZX_ERR_BAD_STATE, st, 0))) ∧
    (s = InterfaceStatus.AVAILABLE →
      usb_device_claim_interface st interface_id = some (ZX_OK,
        { st with statuses := st.statuses.set interface_id InterfaceStatus.CLAIMED }, 0)) := by
  refine ⟨?_, ?_, ?_⟩
  · intro hs
    subst hs
    simp [usb_device_claim_interface, h]
  · intro hs
    subst hs
    constructor
    · intro hchild
      simp [usb_device_claim_interface, h, hchild]
    · intro hchild
      simp [usb_device_claim_interface, h, hchild]
  · intro hs
    subst hs
    simp [usb_device_claim_interface, h]

/-- Claim C3 witness: on a registry with interface 0 published as a child,
`usb_device_claim_interface` removes the child (one framework remove) and
marks the interface claimed. -/
theorem claim3_claim_interface_cases_witness :
    usb_device_claim_interface stChildZero 0 =
      some (ZX_OK, { statuses := [InterfaceStatus.CLAIMED], children := [] }, 1) :=
  ((claim3_claim_interface_cases stChildZero 0 InterfaceStatus.CHILD_DEVICE rfl).2.1 rfl).1
    rfl

/-- Claim C4 counterexample: the claim states that after `claim(i)`
succeeds, no publish (add-interfaces) operation leaves a visible child
for `i` within the epoch.  On `stAvailPair`, claiming interface 1
succeeds, yet a subsequent walk of `blobIadPair` (well-formed, with an
interface association spanning interfaces 0 and 1) publishes an
association child owning interface 1: the walker's IAD branch never
consults `interface_statuses`. -/
theorem claim4_counterexample :
    (usb_device_claim_interface stAvailPair 1).map (fun r => r.1) = some ZX_OK ∧
    WellFormed blobIadPair ∧
    (runOps stAvailPair [DevOp.claimOp 1, DevOp.addIntfOp blobIadPair 40]).statuses
      = [InterfaceStatus.CHILD_DEVICE, InterfaceStatus.CLAIMED] ∧
    ((runOps stAvailPair [DevOp.claimOp 1, DevOp.addIntfOp blobIadPair 40]).children.any
      fun c => c.nums.contains 1) = true := by
  decide

/-- Claim C4 as amended: within one configuration epoch, once
`interface_statuses[i]` is `CLAIMED`, no sequence of claim and
add-interfaces operations ever changes it (so it is never `AVAILABLE` or
`CHILD_DEVICE` again), and no single-interface publish ever produces a
child owning `i`; only an interface-association group spanning `i` can
still publish a child owning `i` (see the counterexample). -/
theorem claim4_claimed_monotone (ops : List DevOp) (st : DevState) (i : Nat)
    (h1 : st.statuses[i]? = some InterfaceStatus.CLAIMED) (h2 : singleClean st i) :
    (runOps st ops).statuses[i]? = some InterfaceStatus.CLAIMED ∧
      singleClean (runOps st ops) i :=
  runOps_inv i ops st h1 h2

/-- Claim C4 witness: a registry with interface 0 claimed stays claimed
across a claim retry and a full walk of a well-formed configuration, and
never acquires a single-interface child for interface 0. -/
theorem claim4_claimed_monotone_witness :
    ((⟨[InterfaceStatus.CLAIMED], []⟩ : DevState).statuses[0]? =
      some InterfaceStatus.CLAIMED) ∧
    ((runOps ⟨[InterfaceStatus.CLAIMED], []⟩
        [DevOp.claimOp 0, DevOp.addIntfOp blobOneIntf 40]).statuses[0]? =
      some InterfaceStatus.CLAIMED ∧
      singleClean (runOps ⟨[InterfaceStatus.CLAIMED], []⟩
        [DevOp.claimOp 0, DevOp.addIntfOp blobOneIntf 40]) 0) :=
  ⟨rfl,
    claim4_claimed_monotone [DevOp.claimOp 0, DevOp.addIntfOp blobOneIntf 40]
      ⟨[InterfaceStatus.CLAIMED], []⟩ 0 rfl
      (fun c hc => absurd hc (List.not_mem_nil c))⟩

/-- Claim C5 counterexample: the claim states that every timed-out
control transfer cancels once, then waits with no deadline, and returns
`ZX_ERR_TIMED_OUT`.  When `usb_hci_cancel_all` itself fails (here with
`ZX_ERR_INTERNAL`), `usb_device_control` skips the deadline-free wait
and returns the cancel error instead of `ZX_ERR_TIMED_OUT`: the trace
ends after the cancel with the request released, with no
`waitForever`. -/
theorem claim5_counterexample :
    usb_device_control_tail ZX_ERR_TIMED_OUT ZX_OK ZX_ERR_INTERNAL false true 0
      = (ZX_ERR_INTERNAL,
          [CtrlAction.clearEvent, CtrlAction.cancelAll, CtrlAction.release]) ∧
    ZX_ERR_INTERNAL ≠ ZX_ERR_TIMED_OUT := by
  decide

/-- Claim C5 as amended: when the completion wait times out and the HCI
cancel succeeds, `usb_device_control` clears the completion event, calls
`usb_hci_cancel_all(device_id, 0)` exactly once, waits with no deadline
for the late completion, only then pools or releases the request, and
returns `ZX_ERR_TIMED_OUT`; if the cancel fails, its error is returned
without the deadline-free wait. -/
theorem claim5_timeout_cancel_wait (respStatus : Int) (useFreeList isOut : Bool)
    (length : Nat) :
    usb_device_control_tail ZX_ERR_TIMED_OUT respStatus ZX_OK useFreeList isOut length
      = (ZX_ERR_TIMED_OUT,
          [CtrlAction.clearEvent, CtrlAction.cancelAll, CtrlAction.waitForever,
            if useFreeList then CtrlAction.pool else CtrlAction.release]) := by
  simp [usb_device_control_tail, ZX_OK, ZX_ERR_TIMED_OUT]

/-- Claim C6 counterexample: the claim states that for every well-formed
blob the concatenated group spans reproduce the blob minus its 9-byte
header.  `blobSkip` is well-formed but carries a class-specific
descriptor at top level; the walk skips it without emitting a group, so
the concatenated group bytes miss its two bytes. -/
theorem claim6_counterexample :
    WellFormed blobSkip ∧
    (usb_device_add_interfaces ⟨[], []⟩ blobSkip 30).map
      (fun p => ((groupSpans p.1).map fun sp => sliceBytes blobSkip sp.1 sp.2).flatten)
      ≠ some (blobSkip.drop 9) := by
  decide

/-- Claim C6 as amended: for every well-formed configuration blob the
walk terminates, and concatenating, in emission order, the byte spans of
all emitted groups together with the spans of the top-level descriptors
the walk skipped yields exactly the blob with its 9-byte header removed;
no byte is left out and none appears twice.  (The original claim fails
only in that bytes of skipped top-level non-interface, non-association
descriptors belong to no group.) -/
theorem claim6_walker_coverage (blob : List Nat) (fuel : Nat) (st : DevState)
    (hwf : WellFormed blob) (hfuel : wTotalLength blob ≤ fuel) :
    ∃ items st', usb_device_add_interfaces st blob fuel = some (items, st') ∧
      (items.map fun it => sliceBytes blob it.span.1 it.span.2).flatten = blob.drop 9 := by
  obtain ⟨h9, hlen, hL0, _, htiles⟩ := hwf
  have ht : Tiling blob (wTotalLength blob) 9 := tilesFromAux_tiling _ _ _ _ htiles
  obtain ⟨items, st', hw, hch⟩ :=
    walk_chained blob (wTotalLength blob) fuel 9 st ht (by omega)
  refine ⟨items, st', by rw [usb_device_add_interfaces, hL0]; exact hw, ?_⟩
  have hj := chained_join blob (items.map Item.span) 9 (wTotalLength blob) hch
  rw [List.map_map] at hj
  have hslice : sliceBytes blob 9 (wTotalLength blob) = blob.drop 9 := by
    unfold sliceBytes
    rw [show wTotalLength blob - 9 = (blob.drop 9).length by rw [List.length_drop]; omega]
    exact List.take_length _
  rw [hslice] at hj
  exact hj

/-- Claim C6 witness: on the well-formed single-interface configuration
`blobOneIntf` the emitted spans concatenate to the blob minus its
header. -/
theorem claim6_walker_coverage_witness :
    WellFormed blobOneIntf ∧ wTotalLength blobOneIntf ≤ 20 ∧
    (∃ items st', usb_device_add_interfaces ⟨[], []⟩ blobOneIntf 20 = some (items, st') ∧
      (items.map fun it => sliceBytes blobOneIntf it.span.1 it.span.2).flatten
        = blobOneIntf.drop 9) :=
  ⟨by decide, by decide,
    claim6_walker_coverage blobOneIntf 20 ⟨[], []⟩ (by decide) (by decide)⟩

/-- Claim C7 counterexample: the claim states that an IAD with
`bInterfaceCount = N` yields one group with exactly N distinct top-level
interface numbers.  `blobShortIad` is well-formed, its IAD at offset 9
declares `bInterfaceCount = 2`, the walk emits exactly one group
spanning offsets 9 to 26, but that group contains a single top-level
interface descriptor (the count of top-level interfaces between the end
of the IAD descriptor, offset 17, and the group end, offset 26, is 1,
not 2). -/
theorem claim7_counterexample :
    WellFormed blobShortIad ∧ dIadCount blobShortIad 9 = 2 ∧
    (usb_device_add_interfaces ⟨[], []⟩ blobShortIad 30).map (fun p => p.1.map Item.span)
      = some [(9, 26)] ∧
    topIntfCount blobShortIad 17 26 = 1 := by
  decide

/-- Claim C7 as amended: when the walk of a tiled configuration blob
reaches an interface association descriptor, it emits exactly one group
for it; the group's span ends at the next IAD, at the first top-level
interface past those consumed, or at end of blob; and the span contains
exactly `bInterfaceCount` top-level interface descriptors whenever the
blob supplies that many before the next IAD or the end of the blob, and
fewer (all of them) otherwise.  The code counts top-level interface
descriptors, not distinct interface numbers, and an IAD that is absorbed
into a preceding single-interface group is never reached at top level
and emits no group. -/
theorem claim7_iad_grouping (blob : List Nat) (fuel h : Nat) (st : DevState)
    (ht : Tiling blob (wTotalLength blob) h) (hh : h < wTotalLength blob)
    (hIad : dType blob h = USB_DT_INTERFACE_ASSOCIATION)
    (hfuel : wTotalLength blob - h < fuel) :
    ∃ e items st',
      walkAux blob (wTotalLength blob) fuel h st
        = some (Item.group (h, e) :: items, st') ∧
      (e = wTotalLength blob ∨ dType blob e = USB_DT_INTERFACE_ASSOCIATION ∨
        (dType blob e = USB_DT_INTERFACE ∧ dAltSetting blob e = 0)) ∧
      (topIntfCount blob (h + dLen blob h) e = dIadCount blob h ∨
        (topIntfCount blob (h + dLen blob h) e < dIadCount blob h ∧
          (e = wTotalLength blob ∨ dType blob e = USB_DT_INTERFACE_ASSOCIATION))) := by
  obtain ⟨hL, hle, ht'⟩ := tiling_step_inv ht hh
  cases fuel with
  | zero => omega
  | succ f =>
    obtain ⟨e, he, h1, h2, h3, h4, h5⟩ :=
      assocEnd_spec blob (wTotalLength blob) (f + 1) (h + dLen blob h)
        (dIadCount blob h) ht' (by omega)
    obtain ⟨items, st', hw, _⟩ :=
      walk_chained blob (wTotalLength blob) f e
        (assocPublish st (topNumsAux blob e e (h + dLen blob h)) (h, e)) h3 (by omega)
    refine ⟨e, items, st', ?_, h4, h5⟩
    simp only [walkAux, if_pos hh, if_pos hIad, he, hw]

/-- Claim C7 witness: on `blobIadOne` (an IAD declaring one interface,
followed by one top-level interface) the walk emits the IAD group
spanning the whole tail with exactly one top-level interface in it. -/
theorem claim7_iad_grouping_witness :
    dType blobIadOne 9 = USB_DT_INTERFACE_ASSOCIATION ∧ 9 < wTotalLength blobIadOne ∧
    (∃ e items st',
      walkAux blobIadOne (wTotalLength blobIadOne) 30 9 ⟨[], []⟩
        = some (Item.group (9, e) :: items, st') ∧
      (e = wTotalLength blobIadOne ∨
        dType blobIadOne e = USB_DT_INTERFACE_ASSOCIATION ∨
        (dType blobIadOne e = USB_DT_INTERFACE ∧ dAltSetting blobIadOne e = 0)) ∧
      (topIntfCount blobIadOne (9 + dLen blobIadOne 9) e = dIadCount blobIadOne 9 ∨
        (topIntfCount blobIadOne (9 + dLen blobIadOne 9) e < dIadCount blobIadOne 9 ∧
          (e = wTotalLength blobIadOne ∨
            dType blobIadOne e = USB_DT_INTERFACE_ASSOCIATION)))) :=
  ⟨rfl, by decide,
    claim7_iad_grouping blobIadOne 30 9 ⟨[], []⟩
      (tilesFromAux_tiling blobIadOne (wTotalLength blobIadOne) 26 9 (by decide))
      (by decide) rfl (by decide)⟩

/-- Claim C8: the relay saves the client's completion callback and cookie
before overwriting them (`usb_device_request_queue`), and on HCI
completion `request_complete` restores exactly the saved values into the
request before appending it to the list consumed by the callback thread;
restore after save is the identity on the callback and cookie fields. -/
theorem claim8_relay_save_restore (deviceId relayCb relayCookie : Nat)
    (req : UsbRequest) (completedReqs : List UsbRequest) :
    ∃ r, request_complete completedReqs
        (usb_device_request_queue deviceId relayCb relayCookie req)
        = completedReqs ++ [r] ∧
      r.completeCb = req.completeCb ∧ r.cookie = req.cookie :=
  ⟨_, rfl, rfl, rfl⟩

/-- Claim C9: the claim states that every ioctl with an output reply
returns `ZX_ERR_BUFFER_TOO_SMALL` and writes nothing when `out_len` is
too small.  The `IOCTL_USB_GET_CONFIG_DESC_SIZE` case has no `out_len`
check at all: with a zero-length output buffer it still returns `ZX_OK`
and writes its 4-byte reply (an out-of-bounds write in the C code),
while the neighbouring `IOCTL_USB_GET_DEVICE_SPEED` case checks and
fails as the claim demands. -/
theorem claim9_config_desc_size_unchecked :
    usb_device_ioctl devOneConfig IoctlOp.getConfigDescSize [2, 0, 0, 0] 0
      = (ZX_OK, [18, 0, 0, 0]) ∧
    usb_device_ioctl devOneConfig IoctlOp.getDeviceSpeed [] 0
      = (ZX_ERR_BUFFER_TOO_SMALL, []) := by
  decide

/-- Claim C10: `usb_device_claim_interface` reads
`interface_statuses[interface_id]` with no bounds check; with the
statuses array sized to the current configuration's `bNumInterfaces`,
the embedded guarded access succeeds exactly when `interface_id` is
below that bound, and fails for every `interface_id` at or above it. -/
theorem claim10_claim_interface_bounds (st : DevState) (cfg : List Nat)
    (interface_id : Nat) (h : st.statuses.length = bNumInterfaces cfg) :
    (usb_device_claim_interface st interface_id).isSome ↔
      interface_id < bNumInterfaces cfg := by
  rw [← h]
  unfold usb_device_claim_interface
  cases hg : st.statuses[interface_id]? with
  | none =>
    have hge : st.statuses.length ≤ interface_id := List.getElem?_eq_none_iff.mp hg
    simp only [hg, Option.isSome_none]
    constructor
    · intro hfalse; cases hfalse
    · intro hlt; omega
  | some s =>
    have hlt : interface_id < st.statuses.length := by
      by_contra hge
      rw [List.getElem?_eq_none_iff.mpr (Nat.le_of_not_lt hge)] at hg
      cases hg
    simp only [hg]
    constructor
    · intro _; exact hlt
    · intro _
      by_cases h1 : s = InterfaceStatus.CLAIMED
      · simp [h1]
      · by_cases h2 : s = InterfaceStatus.CHILD_DEVICE
        · by_cases h3 : hasChildWithId st.children interface_id
          · simp [h1, h2, h3]
          · simp [h1, h2, h3]
        · simp [h1, h2]

/-- Claim C10 witness: with one status slot (matching `bNumInterfaces =
1` of `blobOneIntf`), the access for interface 0 is in bounds and the
access for any higher interface number fails. -/
theorem claim10_claim_interface_bounds_witness :
    ((⟨[InterfaceStatus.AVAILABLE], []⟩ : DevState).statuses.length
      = bNumInterfaces blobOneIntf) ∧
    ((usb_device_claim_interface ⟨[InterfaceStatus.AVAILABLE], []⟩ 1).isSome ↔
      1 < bNumInterfaces blobOneIntf) :=
  ⟨by decide,
    claim10_claim_interface_bounds ⟨[InterfaceStatus.AVAILABLE], []⟩ blobOneIntf 1
      (by decide)⟩
